import Mathlib

/-!
Verification of the private-blockchain ledger implemented in
`src/blockchain.js`.  The ledger stores a list of blocks; new blocks are
admitted via a time-boxed challenge message plus signature verification
and an append step that seals height, previous-hash link, timestamp and
content hash.

The `Block` class lives in `block.js`, which is not part of the source
tree; its constructor, `validate` and `getBData` are modelled from the
specification (marked below).  Everything else is translated directly
from `blockchain.js`.

JavaScript strings are embedded as `List Char`; Unix timestamps
(`new Date().getTime().toString().slice(0, -3)`, i.e. whole seconds) are
embedded as `Nat` parameters passed to each operation that reads the
clock.  The SHA256 content hash is modelled as an ideal (collision-free)
digest: a symbolic constructor applied to the serialized fields.
-/

/-- JavaScript string, embedded as a list of characters. -/
abbrev JStr := List Char

/-- Opaque star/claim data supplied by the caller; the ledger never
inspects it, so a string model suffices. -/
abbrev StarData := List Char

/-- Decoded block payload: either the fixed genesis marker
(`y data: "Genesis Block" y` in the source, with y for braces) or an
ownership record `owner`/`data` as built by `submitStar`. -/
inductive BData : Type where
  | genesisData : BData
  | starData (owner : JStr) (data : StarData) : BData
deriving DecidableEq

/-- Modelled from the spec: the hex-encoded `body` field stored by the
missing `block.js`.  Encoding is reversible (`enc`), and byte strings
that are not a valid encoding (`corrupt`) fail to decode. -/
inductive EncPayload : Type where
  | enc (payload : BData) : EncPayload
  | corrupt (raw : JStr) : EncPayload
deriving DecidableEq

/-- Modelled from the spec: SHA256 digests of a canonical block
serialization, idealized as a collision-free symbolic digest of the
sealed fields (height, previousBlockHash, time, body).  The two
constructors correspond to a null and a present previousBlockHash, so a
digest determines all four fields.  The stored `hash` field itself is
excluded from the digest input, matching the self-validation
contract. -/
inductive HashVal : Type where
  | sha (height : Int) (time : Nat) (body : EncPayload) : HashVal
  | shaLinked (previousBlockHash : HashVal) (height : Int) (time : Nat)
      (body : EncPayload) : HashVal
deriving DecidableEq

/-- A block as manipulated by `blockchain.js`: `hash` is `none` until
the block is sealed by `_addBlock`. -/
structure Block : Type where
  height : Int
  previousBlockHash : Option HashVal
  time : Nat
  body : EncPayload
  hash : Option HashVal
deriving DecidableEq

/-- Modelled from the spec: the `block.js` constructor.  Per the spec,
`construct(payload)` leaves height, previousBlockHash, time and hash
unset and stores the payload in encoded form. -/
def Block.new (payload : BData) : Block :=
  { height := 0, previousBlockHash := none, time := 0
    body := EncPayload.enc payload, hash := none }

/-- Default block used to embed JavaScript array indexing (`chain[i]`);
all accesses performed by the source are in range. -/
def Block.dummy : Block := Block.new BData.genesisData

/-- The content hash `SHA256(JSON.stringify(block))` computed by
`_addBlock`: at that point the `hash` field still holds its constant
initial value, so the digest depends exactly on the four sealed
fields. -/
def hashOf (b : Block) : HashVal :=
  match b.previousBlockHash with
  | none => HashVal.sha b.height b.time b.body
  | some p => HashVal.shaLinked p b.height b.time b.body

/-- Modelled from the spec: `block.js` `validate()` recomputes the
content hash over the current fields (excluding the stored hash) and
compares it with the stored hash. -/
def blockValidate (b : Block) : Bool :=
  b.hash == some (hashOf b)

/-- Modelled from the spec: `block.js` `getBData()` decodes the stored
payload, failing on bytes that are not a valid encoding. -/
def getBData (b : Block) : Option BData :=
  match b.body with
  | EncPayload.enc payload => some payload
  | EncPayload.corrupt _ => none

/-- Owner field of a decoded payload (`dataB.owner` in the source; the
genesis payload has no owner field, i.e. `undefined`). -/
def BData.owner : BData → Option JStr
  | BData.genesisData => none
  | BData.starData o _ => some o

/-- The `Blockchain` class state: the block array and the cached
height. -/
structure Blockchain : Type where
  chain : List Block
  height : Int
deriving DecidableEq

/-- Errors surfaced by the ledger operations. -/
inductive LedgerErr : Type where
  | messageExpired : LedgerErr
  | invalidSignature : LedgerErr
  | chainInvalid : LedgerErr
deriving DecidableEq

/-- Entries of the `errorLog` produced by `validateChain`, tagged with
the height they reference. -/
inductive ChainError : Type where
  | invalidBlock (height : Nat) : ChainError
  | invalidLink (height : Nat) : ChainError
deriving DecidableEq

/-- Errors recorded by `validateChain` while examining index `i`: first
the self-validation check, then (for `i > 0`) the previous-hash link
check, exactly as pushed by the loop body in the source. -/
def errorsAt (st : Blockchain) (i : Nat) : List ChainError :=
  (if blockValidate (st.chain.getD i Block.dummy) then []
   else [ChainError.invalidBlock i]) ++
  (if i > 0 then
    (if (st.chain.getD i Block.dummy).previousBlockHash
        ≠ (st.chain.getD (i - 1) Block.dummy).hash
     then [ChainError.invalidLink i] else [])
   else [])

/-- `validateChain()`: the loop `for (let i = 0; i < self.height; i++)`
accumulates `errorsAt` in order and the promise resolves with the
accumulated log (`[]` when no error was recorded).  Note the loop bound
is strictly below `this.height`, as in the source. -/
def validateChain (st : Blockchain) : List ChainError :=
  (List.range st.height.toNat).flatMap (errorsAt st)

/-- In the source the append guard is `if (this.validateChain())`.
`validateChain()` returns a Promise object, and every object is truthy
in JavaScript, so the guard holds whatever the validation outcome is;
the embedding records that truthiness while keeping the call to
`validateChain` visible. -/
def promiseTruthy (_log : List ChainError) : Bool :=
  true

/-- `_addBlock(block)`: seal height, previousBlockHash and time from the
current head (`chain[chain.length - 1]`), compute the content hash,
then commit guarded by `if (this.validateChain())`. -/
def Blockchain._addBlock (st : Blockchain) (block : Block) (now : Nat) :
    Blockchain × Except LedgerErr Block :=
  let previousBlock := st.chain.getLast?
  let b1 : Block :=
    match previousBlock with
    | some prev =>
      { block with height := st.height, previousBlockHash := prev.hash
                   time := now }
    | none =>
      { block with height := 0, previousBlockHash := none, time := now }
  let sealed : Block := { b1 with hash := some (hashOf b1) }
  if promiseTruthy (validateChain st) then
    ({ chain := st.chain ++ [sealed], height := st.height + 1 },
     Except.ok sealed)
  else
    (st, Except.error LedgerErr.chainInvalid)

/-- The `Blockchain` constructor: empty chain, height `-1`, then
`initializeChain()` appends the genesis block through `_addBlock` when
the height is `-1`. -/
def Blockchain.new (now : Nat) : Blockchain :=
  let st : Blockchain := { chain := [], height := -1 }
  if st.height = -1 then
    (st._addBlock (Block.new BData.genesisData) now).1
  else
    st

/-- JavaScript `split(sep)` on strings: splits into fields, keeping
empty fields, e.g. splitting an empty string yields one empty field. -/
def splitJS (sep : Char) : List Char → List (List Char)
  | [] => [[]]
  | c :: rest =>
    if c = sep then
      [] :: splitJS sep rest
    else
      match splitJS sep rest with
      | [] => [[c]]
      | f :: fs => (c :: f) :: fs

/-- Decimal digit test, `0x30` to `0x39`. -/
def isDig (c : Char) : Bool :=
  48 ≤ c.toNat && c.toNat ≤ 57

/-- Digit value of a character (used on digit characters only). -/
def digitOfChar (c : Char) : Nat :=
  c.toNat - 48

/-- The ten decimal digit characters. -/
def digitChars : List Char :=
  ['0', '1', '2', '3', '4', '5', '6', '7', '8', '9']

/-- Character for a digit value below ten. -/
def charOfDigit (d : Nat) : Char :=
  digitChars.getD d '0'

/-- Reversed decimal digits of `n`, with explicit fuel so the
definition is structurally recursive and evaluates by reduction. -/
def tdr : Nat → Nat → List Char
  | 0, _ => []
  | fuel + 1, n =>
    if n < 10 then [charOfDigit n]
    else charOfDigit (n % 10) :: tdr fuel (n / 10)

/-- JavaScript rendering of a non-negative integer in decimal
(`Number.prototype.toString`). -/
def natToString (n : Nat) : List Char :=
  (tdr (n + 1) n).reverse

/-- JavaScript `parseInt` as used by `submitStar`: the longest leading
run of decimal digits is the value; no leading digit means `NaN`,
embedded as `none`.  (Leading whitespace, signs and radix prefixes never
occur in the fields the source parses and are not modelled.) -/
def parseIntJS (s : List Char) : Option Nat :=
  match s.takeWhile isDig with
  | [] => none
  | ds => some (ds.foldl (fun acc c => acc * 10 + digitOfChar c) 0)

/-- `requestMessageOwnershipVerification(address)`: the challenge
message `address : seconds-now : starRegistry` (colon separated), with
the clock passed explicitly. -/
def requestMessageOwnershipVerification (address : JStr) (now : Nat) :
    JStr :=
  address ++ ':' :: (natToString now ++ ':' :: "starRegistry".toList)

/-- `submitStar(address, message, signature, star)`.  The message time
is `parseInt(message.split(m)[1])` with m the colon; the current time is
in seconds; the expiry guard is `currentTime - messageTime < 300000`
(with a NaN message time every comparison is false, so the guard
fails); then signature verification, then `_addBlock`.  The external
`bitcoinMessage.verify` is a parameter. -/
def submitStar (verify : JStr → JStr → JStr → Bool) (st : Blockchain)
    (address message signature : JStr) (star : StarData) (now : Nat) :
    Blockchain × Except LedgerErr Block :=
  let messageTime := parseIntJS ((splitJS ':' message).getD 1 [])
  let currentTime : Nat := now
  let withinWindow : Bool :=
    match messageTime with
    | some m => decide ((currentTime : Int) - (m : Int) < 300000)
    | none => false
  if withinWindow then
    if verify message address signature then
      st._addBlock (Block.new (BData.starData address star)) now
    else
      (st, Except.error LedgerErr.invalidSignature)
  else
    (st, Except.error LedgerErr.messageExpired)

/-- `getBlockByHeight(height)`: `chain.filter(p => p.height ===
height)[0]`, resolving with the block or with `null` (never
rejecting). -/
def getBlockByHeight (st : Blockchain) (height : Int) : Option Block :=
  (st.chain.filter (fun p => p.height == height)).head?

/-- `getStarsByWalletAddress(address)`: walk the chain, decode each
block (a decode failure is caught and skipped) and push the decoded
payloads whose `owner` equals the address.  The embedding is the
sequential semantics of the loop. -/
def getStarsByWalletAddress (st : Blockchain) (address : JStr) :
    List BData :=
  st.chain.foldl
    (fun stars block =>
      match getBData block with
      | some dataB =>
        if dataB.owner = some address then stars ++ [dataB] else stars
      | none => stars)
    []

/-- `Except.isOk` spelled out, to state that an append committed. -/
def exceptOk {ε α : Type} : Except ε α → Bool
  | Except.ok _ => true
  | Except.error _ => false

/-! ### Concrete fixtures used by the evaluation theorems -/

/-- A concrete wallet address. -/
def addrA : JStr := "1AddrA".toList

/-- A second concrete wallet address. -/
def addrB : JStr := "1AddrB".toList

/-- A concrete star payload. -/
def starX : StarData := "star-x".toList

/-- Another concrete star payload. -/
def starY : StarData := "star-y".toList

/-- A third concrete star payload. -/
def starZ : StarData := "star-z".toList

/-- A signature-verification oracle that rejects every signature. -/
def falseVerify : JStr → JStr → JStr → Bool := fun _ _ _ => false

/-- Ledger holding the genesis block plus one committed star block. -/
def chain2 : Blockchain :=
  ((Blockchain.new 0)._addBlock (Block.new (BData.starData addrA starX)) 1).1

/-- Ledger holding the genesis block plus two committed star blocks. -/
def chain3 : Blockchain :=
  (chain2._addBlock (Block.new (BData.starData addrB starY)) 2).1

/-- `chain3` with the middle block's previousBlockHash overwritten by an
unrelated digest: a chain that full-chain validation reports as
invalid. -/
def tampered3 : Blockchain :=
  { chain3 with
    chain := chain3.chain.set 1
      { chain3.chain.getD 1 Block.dummy with
        previousBlockHash := some (HashVal.sha 77 0 (EncPayload.corrupt [])) } }

/-- The head block of `chain2` with its committed `time` field
altered. -/
def headTampered : Block :=
  { chain2.chain.getD 1 Block.dummy with time := 999 }

/-- `chain2` after the head block was tampered with. -/
def tampered2 : Blockchain :=
  { chain2 with chain := chain2.chain.set 1 headTampered }

/-! ### Claim theorems -/

/-- C1: the claim says `submitStar` rejects with the challenge-expiry
error exactly when the embedded timestamp is at least 300 seconds old.
Evaluating the code: with the clock at second 1000000, a message
timestamped 301 seconds in the past (999699) and one 299 seconds in the
past (999701) both pass the expiry guard and reach signature
verification, and only a message a full 300000 seconds in the past
(700000) is rejected as expired — the guard compares an elapsed time
measured in seconds against the constant 300000. -/
theorem c1_expiry_window_eval :
    (submitStar falseVerify (Blockchain.new 0) "a".toList
        "a:999699:starRegistry".toList "s".toList starX 1000000).2
      = Except.error LedgerErr.invalidSignature ∧
    (submitStar falseVerify (Blockchain.new 0) "a".toList
        "a:999701:starRegistry".toList "s".toList starX 1000000).2
      = Except.error LedgerErr.invalidSignature ∧
    (submitStar falseVerify (Blockchain.new 0) "a".toList
        "a:700000:starRegistry".toList "s".toList starX 1000000).2
      = Except.error LedgerErr.messageExpired :=
  ⟨rfl, rfl, rfl⟩

/-- C2: the claim says a successful append onto a ledger of height `h`
commits a block of height `h + 1` linked to the old head.  Evaluating
the code on a ledger of height 0: the ledger height becomes 1 and the
committed block is linked to the genesis hash as claimed, but the
committed block carries height 0 — `_addBlock` assigns the old height,
not `h + 1`. -/
theorem c2_height_assignment_eval :
    chain2.height = 1 ∧
    (chain2.chain.getD 1 Block.dummy).height = 0 ∧
    (chain2.chain.getD 1 Block.dummy).previousBlockHash
      = (chain2.chain.getD 0 Block.dummy).hash :=
  ⟨rfl, rfl, rfl⟩

/-- C3: the claim says `_addBlock` rejects with the chain-invalid error
and leaves the state unchanged whenever validation finds an
inconsistency.  Evaluating the code on `tampered3`, whose validation
log is non-empty: the append still commits, growing the chain and the
height — the guard `if (this.validateChain())` tests a Promise object,
which is always truthy. -/
theorem c3_always_commits_eval :
    validateChain tampered3 ≠ [] ∧
    exceptOk
      (tampered3._addBlock (Block.new (BData.starData addrA starZ)) 3).2
      = true ∧
    (tampered3._addBlock (Block.new (BData.starData addrA starZ)) 3).1.chain.length
      = tampered3.chain.length + 1 ∧
    (tampered3._addBlock (Block.new (BData.starData addrA starZ)) 3).1.height
      = tampered3.height + 1 :=
  ⟨by decide, rfl, rfl, rfl⟩

/-- C4: the claim says mutating any field of any committed block,
including the head, makes `validateChain` return a non-empty error
list.  Evaluating the code on `tampered2`, whose head block has a
mutated `time` field (so it no longer self-validates): `validateChain`
returns the empty list, because the loop runs `i` strictly below
`this.height` and never examines the head. -/
theorem c4_head_escapes_validation_eval :
    headTampered.time ≠ (chain2.chain.getD 1 Block.dummy).time ∧
    blockValidate headTampered = false ∧
    validateChain tampered2 = [] :=
  ⟨by decide, rfl, rfl⟩

/-- C9: the claim says `getBlockByHeight` returns the block at the
requested height for every in-range height and resolves with `none` out
of range.  Evaluating the code on `chain2` (ledger height 1): height
999 resolves with `none` as claimed, but so does the in-range height 1,
because the committed head carries height 0 (the height-assignment
slip), so no block in the chain has height 1. -/
theorem c9_height_lookup_eval :
    chain2.height = 1 ∧
    getBlockByHeight chain2 1 = none ∧
    getBlockByHeight chain2 999 = none ∧
    getBlockByHeight chain2 0 = some (chain2.chain.getD 0 Block.dummy) :=
  ⟨rfl, rfl, rfl, rfl⟩

/-- C6: a freshly constructed ledger has height 0, exactly one block,
and that genesis block has a null previousBlockHash and passes
self-validation. -/
theorem c6_genesis_invariant (now : Nat) :
    (Blockchain.new now).height = 0 ∧
    (Blockchain.new now).chain.length = 1 ∧
    ((Blockchain.new now).chain.getD 0 Block.dummy).previousBlockHash
      = none ∧
    blockValidate ((Blockchain.new now).chain.getD 0 Block.dummy)
      = true := by
  refine ⟨rfl, rfl, rfl, ?_⟩
  simp [Blockchain.new, Blockchain._addBlock, blockValidate, hashOf,
    promiseTruthy, Block.new]

/-- The cached-height invariant: the `height` field equals the chain
length minus one. -/
def heightInvariant (st : Blockchain) : Prop :=
  st.height = (st.chain.length : Int) - 1

/-- C7: the cached height equals `length(chain) - 1` after construction
and is preserved by every `_addBlock` call (the read-only queries do
not touch the state). -/
theorem c7_cached_height :
    (∀ now, heightInvariant (Blockchain.new now)) ∧
    (∀ st b now, heightInvariant st →
      heightInvariant (st._addBlock b now).1) := by
  constructor
  · intro now
    simp [heightInvariant, Blockchain.new, Blockchain._addBlock,
      promiseTruthy]
  · intro st b now h
    simp [heightInvariant, Blockchain._addBlock, promiseTruthy] at h ⊢
    omega

/-- Closed instance of the cached-height invariant obtained from
`c7_cached_height` at a concrete ledger and block. -/
theorem c7_cached_height_witness :
    heightInvariant
      ((Blockchain.new 0)._addBlock
        (Block.new (BData.starData addrA starX)) 1).1 :=
  c7_cached_height.2 (Blockchain.new 0)
    (Block.new (BData.starData addrA starX)) 1 (c7_cached_height.1 0)

/-! ### Owner query (C5) -/

/-- Accumulator form of the owner-query loop: the loop appends, in
chain order, exactly the decoded payloads whose owner matches. -/
theorem getStars_foldl (address : JStr) (l : List Block) :
    ∀ acc : List BData,
      l.foldl
        (fun stars block =>
          match getBData block with
          | some dataB =>
            if dataB.owner = some address then stars ++ [dataB] else stars
          | none => stars)
        acc
      = acc ++ ((l.filterMap getBData).filter
          (fun d => d.owner == some address)) := by
  induction l with
  | nil => intro acc; simp
  | cons b l ih =>
    intro acc
    cases hb : getBData b with
    | none => simp [hb, ih]
    | some d =>
      by_cases hd : d.owner = some address
      · simp [hb, hd, ih]
      · simp [hb, hd, ih]

/-- C5: the owner query returns exactly the decoded payloads of the
blocks owned by the queried address, in chain order; blocks that fail
to decode are skipped without aborting the walk, and every returned
payload is a star record owned by the address (so the genesis payload,
which has no owner, is never returned). -/
theorem c5_stars_by_owner (st : Blockchain) (address : JStr) :
    getStarsByWalletAddress st address
      = (st.chain.filterMap getBData).filter
          (fun d => d.owner == some address) ∧
    ∀ d ∈ getStarsByWalletAddress st address,
      ∃ s, d = BData.starData address s := by
  have h1 :
      getStarsByWalletAddress st address
        = (st.chain.filterMap getBData).filter
            (fun d => d.owner == some address) := by
    simpa [getStarsByWalletAddress] using getStars_foldl address st.chain []
  refine ⟨h1, ?_⟩
  intro d hd
  rw [h1] at hd
  have hown : d.owner = some address := by
    have := (List.mem_filter.mp hd).2
    simpa using this
  cases d with
  | genesisData => simp [BData.owner] at hown
  | starData o s =>
    refine ⟨s, ?_⟩
    simp [BData.owner] at hown
    rw [hown]

/-! ### Signature gate (C8) -/

/-- C8: a `submitStar` call whose message is inside the 300-second
window claimed by the spec (hence also inside the much larger window
the code actually enforces) but whose signature fails verification
rejects with the invalid-signature error and leaves the ledger
untouched. -/
theorem c8_signature_gate (verify : JStr → JStr → JStr → Bool)
    (st : Blockchain) (address message signature : JStr)
    (star : StarData) (now m : Nat)
    (hm : parseIntJS ((splitJS ':' message).getD 1 []) = some m)
    (hwin : (now : Int) - (m : Int) < 300)
    (hsig : verify message address signature = false) :
    submitStar verify st address message signature star now
      = (st, Except.error LedgerErr.invalidSignature) := by
  have h300000 : ((now : Int) - (m : Int) < 300000) := by omega
  have hm' : parseIntJS ((splitJS ':' message)[1]?.getD []) = some m := by
    simpa using hm
  simp [submitStar, hm', h300000, hsig]

/-- Closed instance of the signature gate obtained from
`c8_signature_gate` at a concrete ledger, message and clock. -/
theorem c8_signature_gate_witness :
    submitStar falseVerify (Blockchain.new 0) "a".toList
      "a:5:starRegistry".toList "s".toList starX 10
      = (Blockchain.new 0, Except.error LedgerErr.invalidSignature) :=
  c8_signature_gate falseVerify (Blockchain.new 0) "a".toList
    "a:5:starRegistry".toList "s".toList starX 10 5 (by decide)
    (by decide) rfl

/-! ### Challenge message round trip (C10) -/

/-- `splitJS` always produces at least one field. -/
theorem splitJS_ne_nil (sep : Char) (s : List Char) :
    splitJS sep s ≠ [] := by
  induction s with
  | nil => simp [splitJS]
  | cons c rest ih =>
    by_cases hc : c = sep
    · simp [splitJS, hc]
    · cases hsp : splitJS sep rest with
      | nil => exact absurd hsp ih
      | cons f fs => simp [splitJS, hc, hsp]

/-- The first field of `splitJS` is the prefix before the first
separator. -/
theorem splitJS_headD (sep : Char) (s : List Char) :
    (splitJS sep s).headD [] = s.takeWhile (fun c => c != sep) := by
  induction s with
  | nil => rfl
  | cons c rest ih =>
    by_cases hc : c = sep
    · subst hc
      simp [splitJS, List.takeWhile_cons]
    · cases hsp : splitJS sep rest with
      | nil => exact absurd hsp (splitJS_ne_nil sep rest)
      | cons f fs =>
        rw [hsp] at ih
        simp only [List.headD_cons] at ih
        simp [splitJS, hc, hsp, List.takeWhile_cons, ih]

/-- Splitting at the first separator: the prefix before it becomes the
first field and the remainder is split recursively. -/
theorem splitJS_append (sep : Char) (a s : List Char) :
    sep ∉ a → splitJS sep (a ++ sep :: s) = a :: splitJS sep s := by
  induction a with
  | nil => intro _; simp [splitJS]
  | cons c a ih =>
    intro ha
    have hc : c ≠ sep := fun h => ha (h ▸ List.mem_cons_self c a)
    have ha' : sep ∉ a := fun h => ha (List.mem_cons_of_mem c h)
    have ih' := ih ha'
    cases hsp : splitJS sep (a ++ sep :: s) with
    | nil => exact absurd hsp (splitJS_ne_nil _ _)
    | cons f fs =>
      rw [hsp] at ih'
      injection ih' with h1 h2
      subst h1; subst h2
      simp [splitJS, hc, hsp]

/-- `takeWhile` ignores everything from the first failing element on. -/
theorem takeWhile_append_stop (p : Char → Bool) (x z : List Char)
    (c : Char) (hc : p c = false) :
    (x ++ c :: z).takeWhile p = x.takeWhile p := by
  induction x with
  | nil => simp [List.takeWhile_cons, hc]
  | cons b x ih =>
    by_cases hb : p b
    · simp [List.takeWhile_cons, hb, ih]
    · simp [List.takeWhile_cons, hb]

/-- `takeWhile` keeps a list all of whose elements satisfy the
predicate. -/
theorem takeWhile_eq_self (p : Char → Bool) (l : List Char)
    (h : ∀ c ∈ l, p c = true) : l.takeWhile p = l := by
  induction l with
  | nil => rfl
  | cons c l ih =>
    simp [List.takeWhile_cons, h c (List.mem_cons_self c l),
      ih fun x hx => h x (List.mem_cons_of_mem c hx)]

/-- Every character emitted for a digit value is a decimal digit. -/
theorem charOfDigit_isDig (d : Nat) : isDig (charOfDigit d) = true := by
  match d with
  | 0 | 1 | 2 | 3 | 4 | 5 | 6 | 7 | 8 | 9 => decide
  | n + 10 =>
    have hlen : digitChars.length ≤ n + 10 := by simp [digitChars]
    rw [charOfDigit, List.getD_eq_default _ _ hlen]
    decide

/-- Reading back the digit character of a value below ten. -/
theorem digitOfChar_charOfDigit (d : Nat) (hd : d < 10) :
    digitOfChar (charOfDigit d) = d := by
  interval_cases d <;> decide

/-- Little-endian decimal value of a digit list. -/
def vRev : List Char → Nat
  | [] => 0
  | c :: cs => digitOfChar c + 10 * vRev cs

/-- `tdr` produces the reversed decimal digits of its input. -/
theorem vRev_tdr : ∀ fuel n : Nat, n ≤ fuel → vRev (tdr fuel n) = n := by
  intro fuel
  induction fuel with
  | zero =>
    intro n hn
    interval_cases n
    rfl
  | succ fuel ih =>
    intro n hn
    by_cases h10 : n < 10
    · simp [tdr, h10, vRev, digitOfChar_charOfDigit n h10]
    · have hdiv : n / 10 ≤ fuel := by
        have : n / 10 < n := Nat.div_lt_self (by omega) (by omega)
        omega
      simp [tdr, h10, vRev, ih (n / 10) hdiv,
        digitOfChar_charOfDigit (n % 10) (Nat.mod_lt n (by omega))]
      omega

/-- Every character produced by `tdr` is a decimal digit. -/
theorem tdr_all_digits :
    ∀ fuel n : Nat, ∀ c ∈ tdr fuel n, isDig c = true := by
  intro fuel
  induction fuel with
  | zero => intro n c hc; simp [tdr] at hc
  | succ fuel ih =>
    intro n c hc
    by_cases h10 : n < 10
    · simp [tdr, h10] at hc
      subst hc
      exact charOfDigit_isDig n
    · simp [tdr, h10] at hc
      rcases hc with rfl | hc
      · exact charOfDigit_isDig _
      · exact ih _ _ hc

/-- `tdr` with enough fuel never returns the empty digit list. -/
theorem tdr_ne_nil (n : Nat) : tdr (n + 1) n ≠ [] := by
  by_cases h10 : n < 10 <;> simp [tdr, h10]

/-- The accumulator fold used by `parseIntJS`, applied to a reversed
digit list, computes the decimal value. -/
theorem foldl_reverse_val (l : List Char) :
    ∀ acc : Nat,
      l.reverse.foldl (fun acc c => acc * 10 + digitOfChar c) acc
        = acc * 10 ^ l.length + vRev l := by
  induction l with
  | nil => intro acc; simp [vRev]
  | cons c cs ih =>
    intro acc
    simp [List.reverse_cons, List.foldl_append, ih, vRev, pow_succ]
    ring

/-- The decimal rendering of a natural number parses back to itself. -/
theorem parseIntJS_natToString (n : Nat) :
    parseIntJS (natToString n) = some n := by
  have hall : ∀ c ∈ natToString n, isDig c = true := fun c hc =>
    tdr_all_digits (n + 1) n c (List.mem_reverse.mp hc)
  have hval :
      (natToString n).foldl (fun acc c => acc * 10 + digitOfChar c) 0
        = n := by
    have h := foldl_reverse_val (tdr (n + 1) n) 0
    simpa [natToString, vRev_tdr (n + 1) n (Nat.le_succ n)] using h
  rw [parseIntJS, takeWhile_eq_self _ _ hall]
  cases hns : natToString n with
  | nil =>
    exact absurd (by simpa [natToString] using hns) (tdr_ne_nil n)
  | cons c cs =>
    rw [hns] at hval
    simp [hval]

/-- Every character of a decimal rendering is a digit. -/
theorem natToString_all_digits (n : Nat) :
    ∀ c ∈ natToString n, isDig c = true := fun c hc =>
  tdr_all_digits (n + 1) n c (List.mem_reverse.mp hc)

/-- A decimal digit is never the colon separator. -/
theorem isDig_ne_colon (c : Char) (h : isDig c = true) :
    (c != ':') = true := by
  rcases eq_or_ne c ':' with rfl | hne
  · exact absurd h (by decide)
  · simp [hne]

/-- The first element of a splitting, through `getD`. -/
theorem splitJS_getD_zero (sep : Char) (s : List Char) :
    (splitJS sep s).getD 0 [] = s.takeWhile (fun c => c != sep) := by
  cases hsp : splitJS sep s with
  | nil => exact absurd hsp (splitJS_ne_nil sep s)
  | cons f fs =>
    have := splitJS_headD sep s
    rw [hsp] at this
    simpa using this

/-- A list containing a separator decomposes at its first
occurrence. -/
theorem mem_split_first (sep : Char) (l : List Char) (h : sep ∈ l) :
    ∃ a r, l = a ++ sep :: r ∧ sep ∉ a := by
  induction l with
  | nil => cases h
  | cons c l ih =>
    by_cases hc : c = sep
    · exact ⟨[], l, by simp [hc], by simp⟩
    · have hl : sep ∈ l := by
        rcases List.mem_cons.mp h with h1 | h1
        · exact absurd h1.symm hc
        · exact h1
      rcases ih hl with ⟨a, r, rfl, hna⟩
      exact ⟨c :: a, r, rfl, by
        simp [List.mem_cons, hna]
        exact fun h2 => hc h2.symm⟩

/-- For addresses without a colon, the second field of the challenge
message is the rendered timestamp, so parsing recovers it. -/
theorem challenge_roundtrip_no_colon (address : JStr) (t : Nat)
    (ha : ':' ∉ address) :
    parseIntJS
      ((splitJS ':'
        (requestMessageOwnershipVerification address t)).getD 1 [])
      = some t := by
  rw [requestMessageOwnershipVerification, splitJS_append ':' address _ ha,
    List.getD_cons_succ, splitJS_getD_zero,
    takeWhile_append_stop _ _ _ ':' (by simp),
    takeWhile_eq_self _ (natToString t)
      (fun c hc => isDig_ne_colon c (natToString_all_digits t c hc)),
    parseIntJS_natToString]

/-- For addresses containing a colon, the field `submitStar` parses is
the second colon-field of the address itself, independent of the
embedded timestamp. -/
theorem challenge_field_from_address (address : JStr) (t : Nat)
    (ha : ':' ∈ address) :
    (splitJS ':'
      (requestMessageOwnershipVerification address t)).getD 1 []
      = (splitJS ':' address).getD 1 [] := by
  rcases mem_split_first ':' address ha with ⟨a, r, rfl, hna⟩
  have h1 : requestMessageOwnershipVerification (a ++ ':' :: r) t
      = a ++ ':' :: (r ++ ':'
          :: (natToString t ++ ':' :: "starRegistry".toList)) := by
    simp [requestMessageOwnershipVerification]
  rw [h1, splitJS_append ':' a _ hna, List.getD_cons_succ,
    splitJS_append ':' a r hna, List.getD_cons_succ,
    splitJS_getD_zero, splitJS_getD_zero,
    takeWhile_append_stop _ _ _ ':' (by simp)]

/-- C10: for every address without a colon the timestamp embedded by
`requestMessageOwnershipVerification` at time `t` is exactly what
`submitStar` parses back out of the message; for an address containing
a colon the parsed field is taken from the address instead, and the
round trip fails, e.g. on the address `"a:b"`. -/
theorem c10_challenge_parse_roundtrip :
    (∀ (address : JStr) (t : Nat), ':' ∉ address →
      parseIntJS
        ((splitJS ':'
          (requestMessageOwnershipVerification address t)).getD 1 [])
        = some t) ∧
    (∀ (address : JStr) (t : Nat), ':' ∈ address →
      (splitJS ':'
        (requestMessageOwnershipVerification address t)).getD 1 []
        = (splitJS ':' address).getD 1 []) ∧
    parseIntJS
      ((splitJS ':'
        (requestMessageOwnershipVerification "a:b".toList 5)).getD 1 [])
      ≠ some 5 := by
  refine ⟨challenge_roundtrip_no_colon, challenge_field_from_address, ?_⟩
  rw [challenge_field_from_address "a:b".toList 5 (by decide)]
  decide

/-- Closed instances of the round trip obtained from
`c10_challenge_parse_roundtrip` at concrete addresses and times. -/
theorem c10_challenge_parse_roundtrip_witness :
    parseIntJS
      ((splitJS ':'
        (requestMessageOwnershipVerification "1Addr".toList 42)).getD 1 [])
      = some 42 ∧
    (splitJS ':'
      (requestMessageOwnershipVerification "a:b".toList 7)).getD 1 []
      = (splitJS ':' "a:b".toList).getD 1 [] :=
  ⟨c10_challenge_parse_roundtrip.1 "1Addr".toList 42 (by decide),
   c10_challenge_parse_roundtrip.2.1 "a:b".toList 7 (by decide)⟩
